import Mathlib

/-!
Verification development for the crypto market-data dashboard
(`app_crypto.py`): the OHLC fetcher `get_ohlc_data`, the RSI indicator
`calculate_rsi`, and the spec-level moving-average and cache contracts.

Modelling conventions:
* pandas float cells are modelled by `PVal`: a finite rational together
  with the IEEE special values `inf`, `ninf` and `nan` that the RSI
  arithmetic can produce;
* a pandas `DataFrame` is an ordered list of named columns of `PVal`;
* the single `requests.get` interaction of one call to `get_ohlc_data`
  is modelled by a `FetchResponse` value describing what the provider
  did (transport exception, HTTP status, parsed JSON body).
-/

namespace AppCrypto

/-- Scalar model of a pandas float cell: a finite rational (`val`),
positive infinity, negative infinity, or NaN. -/
inductive PVal where
  | nan : PVal
  | inf : PVal
  | ninf : PVal
  | val : ℚ → PVal
deriving DecidableEq

/-! ## calculate_rsi (lines 36-46 of app_crypto.py)

`delta = df['close'].diff()` — NaN at row 0, `close[i] - close[i-1]` after.
For a close column of finite floats the deltas are NaN or finite. -/

/-- `df['close'].diff()` at row `i` of a finite close series. -/
def deltaAt (close : List ℚ) (i : ℕ) : PVal :=
  if i = 0 then .nan
  else
    match close[i]?, close[i - 1]? with
    | some a, some b => .val (a - b)
    | _, _ => .nan

/-- `(delta.where(delta > 0, 0))` at row `i`: keep `delta` where
`delta > 0`, else 0.  `NaN > 0` is false, so the NaN at row 0 is
replaced by 0 (and only NaN or finite deltas occur here). -/
def gainAt (close : List ℚ) (i : ℕ) : ℚ :=
  match deltaAt close i with
  | .val d => if 0 < d then d else 0
  | _ => 0

/-- `(-delta.where(delta < 0, 0))` at row `i`: keep `delta` where
`delta < 0`, else 0, then negate.  `NaN < 0` is false, so row 0 gives 0. -/
def lossAt (close : List ℚ) (i : ℕ) : ℚ :=
  match deltaAt close i with
  | .val d => if d < 0 then -d else 0
  | _ => 0

/-- `series.rolling(window=p).mean()` at row `i`: with the default
`min_periods = p`, rows `0 .. p-2` are NaN (`none`); from row `p-1`
onwards the value is the mean of the `p` entries ending at row `i`. -/
def rollingMeanAt (p : ℕ) (f : ℕ → ℚ) (i : ℕ) : Option ℚ :=
  if p ≤ i + 1 then some ((∑ j ∈ Finset.range p, f (i - j)) / (p : ℚ))
  else none

/-- `gain.rolling(window=period).mean()` at row `i`. -/
def avgGainAt (close : List ℚ) (p i : ℕ) : Option ℚ :=
  rollingMeanAt p (gainAt close) i

/-- `loss.rolling(window=period).mean()` at row `i`. -/
def avgLossAt (close : List ℚ) (p i : ℕ) : Option ℚ :=
  rollingMeanAt p (lossAt close) i

/-- `rs = gain / loss` at row `i`, with IEEE semantics: NaN if either
operand is NaN; for a zero divisor, `g/0` is `+inf` when `g > 0`, NaN
when `g = 0`, `-inf` when `g < 0`. -/
def rsAt (close : List ℚ) (p i : ℕ) : PVal :=
  match avgGainAt close p i, avgLossAt close p i with
  | some g, some l =>
      if l = 0 then (if 0 < g then .inf else if g = 0 then .nan else .ninf)
      else .val (g / l)
  | _, _ => .nan

/-- `100 - (100 / (1 + rs))` on one cell, with IEEE semantics on the
special values: `1 + inf = inf`, `100/inf = 0`, so `inf ↦ 100`;
`1 + (-inf) = -inf`, `100/(-inf) = -0`, so `ninf ↦ 100`; NaN propagates;
`r = -1` gives `100/(+0) = +inf`, so `-1 ↦ -inf`. -/
def rsiOfRs : PVal → PVal
  | .nan => .nan
  | .inf => .val 100
  | .ninf => .val 100
  | .val r => if 1 + r = 0 then .ninf else .val (100 - 100 / (1 + r))

/-- The RSI cell at row `i`. -/
def rsiAt (close : List ℚ) (p i : ℕ) : PVal :=
  rsiOfRs (rsAt close p i)

/-- The `'RSI'` column that `calculate_rsi` computes from the close
column, one cell per data row. -/
def calculate_rsi (close : List ℚ) (p : ℕ) : List PVal :=
  (List.range close.length).map (rsiAt close p)

/-! ## DataFrame model -/

/-- A pandas DataFrame: an ordered list of named columns. -/
structure DataFrame where
  cols : List (String × List PVal)
deriving DecidableEq

/-- First column with the given name (pandas column lookup `df[name]`). -/
def lookupCol : List (String × List PVal) → String → Option (List PVal)
  | [], _ => none
  | c :: rest, n => if c.1 = n then some c.2 else lookupCol rest n

/-- `df[name]`, `none` when the column is missing (a `KeyError`). -/
def DataFrame.getCol (df : DataFrame) (n : String) : Option (List PVal) :=
  lookupCol df.cols n

/-- Replace every column named `n` by `(n, xs)`, keeping its position. -/
def replaceCol : List (String × List PVal) → String → List PVal →
    List (String × List PVal)
  | [], _, _ => []
  | c :: rest, n, xs =>
      if c.1 = n then (n, xs) :: replaceCol rest n xs
      else c :: replaceCol rest n xs

/-- `df[name] = xs`: pandas column assignment overwrites the column in
place when it exists and appends a new last column otherwise. -/
def DataFrame.setCol (df : DataFrame) (n : String) (xs : List PVal) :
    DataFrame :=
  if (lookupCol df.cols n).isSome then ⟨replaceCol df.cols n xs⟩
  else ⟨df.cols ++ [(n, xs)]⟩

/-- Extract a column of finite cells; `none` when some cell is not a
finite rational (such columns are outside this model's domain). -/
def asFiniteList : List PVal → Option (List ℚ)
  | [] => some []
  | .val q :: rest => (asFiniteList rest).map (fun l => q :: l)
  | _ => none

/-- `calculate_rsi(df, period)` at the DataFrame level.  The Python body
executes `df['RSI'] = ...` and then `return df`: the returned object IS
the argument object, so the value returned here is simultaneously the
return value and the state of the caller's DataFrame after the call.
A missing `'close'` column raises a `KeyError` (`none`). -/
def calculate_rsi_df (df : DataFrame) (period : ℕ) : Option DataFrame :=
  match df.getCol "close" with
  | none => none
  | some col =>
      (asFiniteList col).map
        (fun close => df.setCol "RSI" (calculate_rsi close period))

/-! ## get_ohlc_data (lines 11-34 of app_crypto.py) -/

/-- Outcome of the one `requests.get` call inside `get_ohlc_data`:
either the call raised (transport failure), or it produced a response
with an HTTP status and a body.  `body = none` models a body on which
`response.json()` raises (unparsable, or not a JSON array of numeric
rows); `body = some data` is the parsed list of numeric rows. -/
inductive FetchResponse where
  | exn : FetchResponse
  | http : ℕ → Option (List (List ℚ)) → FetchResponse
deriving DecidableEq

/-- The empty `pd.DataFrame()`. -/
def emptyDF : DataFrame := ⟨[]⟩

/-- Width that `pd.DataFrame` infers for a list of rows: the maximum
row length. -/
def rowWidth (data : List (List ℚ)) : ℕ :=
  data.foldr (fun r m => max r.length m) 0

/-- Cell `j` of raw row `r` in the constructed frame: rows shorter than
the inferred width are padded with NaN. -/
def ohlcCell (r : List ℚ) (j : ℕ) : PVal :=
  if j < r.length then .val (r.getD j 0) else .nan

/-- `pd.DataFrame(data, columns=['timestamp','open','high','low','close'])`
followed by `df['date'] = pd.to_datetime(df['timestamp'], unit='ms')`.
`to_datetime` on millisecond values is strictly monotone and injective,
so a date cell is represented by its millisecond value. -/
def mkOhlcDF (data : List (List ℚ)) : DataFrame :=
  ⟨[("timestamp", data.map (fun r => ohlcCell r 0)),
    ("open", data.map (fun r => ohlcCell r 1)),
    ("high", data.map (fun r => ohlcCell r 2)),
    ("low", data.map (fun r => ohlcCell r 3)),
    ("close", data.map (fun r => ohlcCell r 4)),
    ("date", data.map (fun r => ohlcCell r 0))]⟩

/-- Body of `get_ohlc_data`'s `try` block.  `Except.error` models an
exception reaching the `except` handler: `requests.get` raising,
`raise_for_status` (which raises exactly for statuses 400-599),
`response.json()` raising, or `pd.DataFrame(data, columns=[5 names])`
raising because the inferred width differs from 5. -/
def get_ohlc_body (resp : FetchResponse) : Except Unit DataFrame :=
  match resp with
  | .exn => .error ()
  | .http status body =>
      if 400 ≤ status ∧ status < 600 then .error ()
      else
        match body with
        | none => .error ()
        | some data =>
            if data = [] then .ok emptyDF
            else if rowWidth data = 5 then .ok (mkOhlcDF data)
            else .error ()

/-- Result of one call to `get_ohlc_data`: the returned DataFrame and
how many network requests were issued during the call. -/
structure FetchOutcome where
  df : DataFrame
  networkCalls : ℕ
deriving DecidableEq

/-- `get_ohlc_data(coin_id, days)`: the `days` argument is passed to the
provider unvalidated and `requests.get` is always issued (exactly one
network call on every path, including failing ones); any exception in
the `try` block is caught, `st.error` is shown, and an empty DataFrame
is returned. -/
def get_ohlc_data (coin_id days : String) (resp : FetchResponse) :
    FetchOutcome :=
  match get_ohlc_body resp with
  | .ok df => ⟨df, 1⟩
  | .error _ => ⟨emptyDF, 1⟩

/-- The `days` values offered by the sidebar slider in `main`
(line 107 of app_crypto.py). -/
def days_options : List String := ["7", "14", "30", "90", "180", "365"]

/-! ## Spec-modelled components

The moving-average indicator and the internals of the
`@st.cache_data(ttl=300)` memoization are not part of `src/`; they are
modelled from the spec. -/

/-- Modelled from the spec: the list of `n`-wide trailing windows of a
series, one per defined moving-average position. -/
def windows (n : ℕ) (xs : List ℚ) : List (List ℚ) :=
  (List.range (xs.length + 1 - n)).map (fun k => (xs.drop k).take n)

/-- Modelled from the spec: `withMovingAverage` — no moving-average code
exists in `src/`.  Per the spec, the derived series has the first
`n - 1` positions absent (not zero) and, from position `n - 1` on,
the arithmetic mean of the `n`-wide trailing window. -/
def movingAverage (n : ℕ) (xs : List ℚ) : List (Option ℚ) :=
  List.replicate (min xs.length (n - 1)) none ++
    (windows n xs).map (fun w => some (w.sum / (n : ℚ)))

/-- One cache line of the TTL cache: key `(coin_id, days)`, the cached
DataFrame, and the instant at which the entry expires. -/
abbrev CacheState := List ((String × String) × DataFrame × ℕ)

/-- Modelled from the spec: cache lookup — an entry whose TTL has
elapsed is treated as absent. -/
def cacheLookup : CacheState → String × String → ℕ → Option DataFrame
  | [], _, _ => none
  | e :: rest, key, now =>
      if e.1 = key then (if now < e.2.2 then some e.2.1 else none)
      else cacheLookup rest key now

/-- Modelled from the spec: cache insertion of a fresh entry. -/
def cacheInsert (st : CacheState) (key : String × String)
    (df : DataFrame) (expiresAt : ℕ) : CacheState :=
  (key, df, expiresAt) :: st.filter (fun e => decide (e.1 ≠ key))

/-- Modelled from the spec: the memoization that `@st.cache_data(ttl=300)`
wraps around `get_ohlc_data` — the decorator's internals are not in
`src/`, only its application with `ttl=300` (5 minutes) is.  Results are
memoized by the argument key `(coin_id, days)` (the cached function is
the OHLC fetcher, so the spec's `kind` component is fixed); a live hit
returns the cached frame with no network call, a miss calls
`get_ohlc_data` (one network call) and stores the result for 300 s. -/
def cachedFetch (now : ℕ) (coin_id days : String) (resp : FetchResponse)
    (st : CacheState) : DataFrame × CacheState × ℕ :=
  match cacheLookup st (coin_id, days) now with
  | some df => (df, st, 0)
  | none =>
      let out := get_ohlc_data coin_id days resp
      (out.df, cacheInsert st (coin_id, days) out.df (now + 300),
        out.networkCalls)

/-! ## Spec-side RSI formulas (spec section 4.3)

These restate the spec's own definitions of `gain`, `loss`, `avgGain`
and `avgLoss`; the claims compare the code's computation against them. -/

/-- The spec's `gain[i] = max(delta[i], 0)` with
`delta[i] = close[i] - close[i-1]`, meaningful for `1 ≤ i < length`. -/
def specGain (close : List ℚ) (i : ℕ) : ℚ :=
  max (close.getD i 0 - close.getD (i - 1) 0) 0

/-- The spec's `loss[i] = max(-delta[i], 0)`. -/
def specLoss (close : List ℚ) (i : ℕ) : ℚ :=
  max (-(close.getD i 0 - close.getD (i - 1) 0)) 0

/-- The spec's `avgGain[i]`: trailing simple mean of the last `p`
values of `gain` ending at `i`. -/
def specAvgGain (close : List ℚ) (p i : ℕ) : ℚ :=
  (∑ j ∈ Finset.range p, specGain close (i - j)) / (p : ℚ)

/-- The spec's `avgLoss[i]`: trailing simple mean of the last `p`
values of `loss` ending at `i`. -/
def specAvgLoss (close : List ℚ) (p i : ℕ) : ℚ :=
  (∑ j ∈ Finset.range p, specLoss close (i - j)) / (p : ℚ)

/-- Decidable check that a column is strictly increasing, comparing
finite cells by value (any non-finite cell fails the check). -/
def strictlyIncreasing : List PVal → Bool
  | [] => true
  | [_] => true
  | a :: b :: rest =>
      (match a, b with
       | .val x, .val y => decide (x < y)
       | _, _ => false) && strictlyIncreasing (b :: rest)

/-! ## Helper lemmas -/

theorem calculate_rsi_getElem (close : List ℚ) (p i : ℕ)
    (h : i < close.length) :
    (calculate_rsi close p)[i]? = some (rsiAt close p i) := by
  simp [calculate_rsi, List.getElem?_map, List.getElem?_range, h]

theorem calculate_rsi_length (close : List ℚ) (p : ℕ) :
    (calculate_rsi close p).length = close.length := by
  simp [calculate_rsi]

theorem deltaAt_of_lt (close : List ℚ) (k : ℕ) (h1 : 1 ≤ k)
    (h2 : k < close.length) :
    deltaAt close k = .val (close.getD k 0 - close.getD (k - 1) 0) := by
  have hk0 : k ≠ 0 := by omega
  have h2' : k - 1 < close.length := by omega
  have e1 : close[k]? = some (close.getD k 0) := by
    rw [List.getElem?_eq_getElem h2, List.getD_eq_getElem?_getD,
      List.getElem?_eq_getElem h2]
    rfl
  have e2 : close[k - 1]? = some (close.getD (k - 1) 0) := by
    rw [List.getElem?_eq_getElem h2', List.getD_eq_getElem?_getD,
      List.getElem?_eq_getElem h2']
    rfl
  unfold deltaAt
  rw [if_neg hk0, e1, e2]

theorem ite_pos_eq_max (d : ℚ) : (if 0 < d then d else 0) = max d 0 := by
  rcases le_or_lt d 0 with h | h
  · rw [max_eq_right h, if_neg (not_lt.mpr h)]
  · rw [max_eq_left h.le, if_pos h]

theorem ite_neg_eq_max (d : ℚ) : (if d < 0 then -d else 0) = max (-d) 0 := by
  rcases le_or_lt 0 d with h | h
  · rw [max_eq_right (by linarith), if_neg (not_lt.mpr h)]
  · rw [max_eq_left (by linarith), if_pos h]

theorem gainAt_eq_specGain (close : List ℚ) (k : ℕ) (h1 : 1 ≤ k)
    (h2 : k < close.length) : gainAt close k = specGain close k := by
  unfold gainAt specGain
  rw [deltaAt_of_lt close k h1 h2]
  exact ite_pos_eq_max _

theorem lossAt_eq_specLoss (close : List ℚ) (k : ℕ) (h1 : 1 ≤ k)
    (h2 : k < close.length) : lossAt close k = specLoss close k := by
  unfold lossAt specLoss
  rw [deltaAt_of_lt close k h1 h2]
  exact ite_neg_eq_max _

theorem avgGainAt_eq_spec (close : List ℚ) (p i : ℕ) (hp : p ≤ i)
    (hi : i < close.length) :
    avgGainAt close p i = some (specAvgGain close p i) := by
  unfold avgGainAt rollingMeanAt specAvgGain
  rw [if_pos (by omega)]
  congr 2
  refine Finset.sum_congr rfl fun j hj => ?_
  have hj' : j < p := Finset.mem_range.mp hj
  exact gainAt_eq_specGain close (i - j) (by omega) (by omega)

theorem avgLossAt_eq_spec (close : List ℚ) (p i : ℕ) (hp : p ≤ i)
    (hi : i < close.length) :
    avgLossAt close p i = some (specAvgLoss close p i) := by
  unfold avgLossAt rollingMeanAt specAvgLoss
  rw [if_pos (by omega)]
  congr 2
  refine Finset.sum_congr rfl fun j hj => ?_
  have hj' : j < p := Finset.mem_range.mp hj
  exact lossAt_eq_specLoss close (i - j) (by omega) (by omega)

theorem specGain_nonneg (close : List ℚ) (i : ℕ) : 0 ≤ specGain close i :=
  le_max_right _ _

theorem specAvgGain_nonneg (close : List ℚ) (p i : ℕ) :
    0 ≤ specAvgGain close p i :=
  div_nonneg (Finset.sum_nonneg fun j _ => specGain_nonneg close (i - j))
    (Nat.cast_nonneg p)

theorem rsAt_of_some (close : List ℚ) (p i : ℕ) (g l : ℚ)
    (hg : avgGainAt close p i = some g) (hl : avgLossAt close p i = some l) :
    rsAt close p i =
      if l = 0 then (if 0 < g then .inf else if g = 0 then .nan else .ninf)
      else .val (g / l) := by
  unfold rsAt
  rw [hg, hl]

theorem gainAt_replicate (c : ℚ) (n k : ℕ) :
    gainAt (List.replicate n c) k = 0 := by
  unfold gainAt deltaAt
  rcases eq_or_ne k 0 with rfl | hk
  · simp
  · rw [if_neg hk]
    by_cases h : k < n
    · simp [List.getElem?_replicate, h, (by omega : k - 1 < n)]
    · simp [List.getElem?_replicate, h]

theorem lossAt_replicate (c : ℚ) (n k : ℕ) :
    lossAt (List.replicate n c) k = 0 := by
  unfold lossAt deltaAt
  rcases eq_or_ne k 0 with rfl | hk
  · simp
  · rw [if_neg hk]
    by_cases h : k < n
    · simp [List.getElem?_replicate, h, (by omega : k - 1 < n)]
    · simp [List.getElem?_replicate, h]

theorem rsiAt_replicate (c : ℚ) (n p i : ℕ) :
    rsiAt (List.replicate n c) p i = PVal.nan := by
  unfold rsiAt rsAt avgGainAt avgLossAt rollingMeanAt
  by_cases hpi : p ≤ i + 1 <;>
    simp [hpi, gainAt_replicate, lossAt_replicate, rsiOfRs]

theorem asFiniteList_map_val (l : List ℚ) :
    asFiniteList (l.map PVal.val) = some l := by
  induction l with
  | nil => rfl
  | cons a t ih => simp [asFiniteList, ih]

theorem lookupCol_append (l1 l2 : List (String × List PVal)) (n : String) :
    lookupCol (l1 ++ l2) n =
      match lookupCol l1 n with
      | some v => some v
      | none => lookupCol l2 n := by
  induction l1 with
  | nil => rfl
  | cons c t ih => by_cases h : c.1 = n <;> simp [lookupCol, h, ih]

theorem lookupCol_replaceCol_self (l : List (String × List PVal))
    (n : String) (xs : List PVal) (h : (lookupCol l n).isSome) :
    lookupCol (replaceCol l n xs) n = some xs := by
  induction l with
  | nil => simp [lookupCol] at h
  | cons c t ih =>
    by_cases hc : c.1 = n
    · simp [replaceCol, hc, lookupCol]
    · rw [lookupCol, if_neg hc] at h
      simp [replaceCol, hc, lookupCol, ih h]

theorem lookupCol_replaceCol_ne (l : List (String × List PVal))
    (n m : String) (xs : List PVal) (hnm : m ≠ n) :
    lookupCol (replaceCol l n xs) m = lookupCol l m := by
  induction l with
  | nil => rfl
  | cons c t ih =>
    by_cases hc : c.1 = n
    · have hcm : ¬ c.1 = m := by rw [hc]; exact fun h => hnm h.symm
      simp [replaceCol, hc, lookupCol, hcm,
        (show ¬ n = m from fun h => hnm h.symm), ih]
    · by_cases hcm : c.1 = m <;>
        simp [replaceCol, hc, lookupCol, hcm, hnm, ih]

theorem getCol_setCol_self (df : DataFrame) (n : String) (xs : List PVal) :
    (df.setCol n xs).getCol n = some xs := by
  unfold DataFrame.setCol DataFrame.getCol
  by_cases h : (lookupCol df.cols n).isSome
  · rw [if_pos h]
    exact lookupCol_replaceCol_self df.cols n xs h
  · rw [if_neg h]
    have hn : lookupCol df.cols n = none := by
      rcases he : lookupCol df.cols n with _ | v
      · rfl
      · rw [he] at h
        simp at h
    simp [lookupCol_append, hn, lookupCol]

theorem getCol_setCol_ne (df : DataFrame) (n m : String) (xs : List PVal)
    (hnm : m ≠ n) : (df.setCol n xs).getCol m = df.getCol m := by
  unfold DataFrame.setCol DataFrame.getCol
  by_cases h : (lookupCol df.cols n).isSome
  · rw [if_pos h]
    exact lookupCol_replaceCol_ne df.cols n m xs hnm
  · rw [if_neg h]
    rw [lookupCol_append]
    rcases he : lookupCol df.cols m with _ | v
    · simp [he, lookupCol, Ne.symm hnm]
    · simp [he]

theorem setCol_names_of_absent (df : DataFrame) (n : String)
    (xs : List PVal) (h : df.getCol n = none) :
    (df.setCol n xs).cols.map Prod.fst = df.cols.map Prod.fst ++ [n] := by
  unfold DataFrame.setCol
  have : ¬ (lookupCol df.cols n).isSome := by
    unfold DataFrame.getCol at h
    simp [h]
  rw [if_neg this]
  simp

theorem get_ohlc_networkCalls (cid days : String) (resp : FetchResponse) :
    (get_ohlc_data cid days resp).networkCalls = 1 := by
  unfold get_ohlc_data
  rcases get_ohlc_body resp with _ | df <;> rfl

theorem get_ohlc_df_of_error (cid days : String) (resp : FetchResponse)
    (h : get_ohlc_body resp = .error ()) :
    (get_ohlc_data cid days resp).df = emptyDF := by
  unfold get_ohlc_data
  rw [h]

theorem get_ohlc_df_of_ok (cid days : String) (resp : FetchResponse)
    (df : DataFrame) (h : get_ohlc_body resp = .ok df) :
    (get_ohlc_data cid days resp).df = df := by
  unfold get_ohlc_data
  rw [h]

theorem get_ohlc_body_status_err (s : ℕ) (b : Option (List (List ℚ)))
    (h1 : 400 ≤ s) (h2 : s < 600) :
    get_ohlc_body (.http s b) = .error () := by
  simp only [get_ohlc_body]
  rw [if_pos ⟨h1, h2⟩]

theorem get_ohlc_body_unparsable (s : ℕ) (hs : ¬ (400 ≤ s ∧ s < 600)) :
    get_ohlc_body (.http s none) = .error () := by
  simp only [get_ohlc_body]
  rw [if_neg hs]

theorem get_ohlc_body_empty_payload (s : ℕ) (hs : ¬ (400 ≤ s ∧ s < 600)) :
    get_ohlc_body (.http s (some [])) = .ok emptyDF := by
  simp only [get_ohlc_body]
  rw [if_neg hs]
  rfl

theorem get_ohlc_body_parsed (s : ℕ) (data : List (List ℚ))
    (hs : ¬ (400 ≤ s ∧ s < 600)) (h0 : data ≠ [])
    (hw : rowWidth data = 5) :
    get_ohlc_body (.http s (some data)) = .ok (mkOhlcDF data) := by
  simp only [get_ohlc_body]
  rw [if_neg hs, if_neg h0, if_pos hw]

theorem get_ohlc_body_badwidth (s : ℕ) (data : List (List ℚ))
    (hs : ¬ (400 ≤ s ∧ s < 600)) (h0 : data ≠ [])
    (hw : ¬ rowWidth data = 5) :
    get_ohlc_body (.http s (some data)) = .error () := by
  simp only [get_ohlc_body]
  rw [if_neg hs, if_neg h0, if_neg hw]

theorem rowWidth_of_all5 (data : List (List ℚ)) (h0 : data ≠ [])
    (h5 : ∀ r ∈ data, r.length = 5) : rowWidth data = 5 := by
  induction data with
  | nil => exact absurd rfl h0
  | cons r rest ih =>
    have hr : r.length = 5 := h5 r (List.mem_cons_self r rest)
    rcases eq_or_ne rest [] with rfl | hne
    · simp [rowWidth, hr]
    · have hrest : rowWidth rest = 5 :=
        ih hne fun x hx => h5 x (List.mem_cons_of_mem r hx)
      have : rowWidth (r :: rest) = max r.length (rowWidth rest) := rfl
      rw [this, hr, hrest]
      simp

theorem filter_isSome_replicate_none (m : ℕ) :
    (List.replicate m (none : Option ℚ)).filter Option.isSome = [] := by
  induction m with
  | zero => rfl
  | succ k ih => simp [List.replicate_succ, List.filter, ih]

theorem filter_isSome_map_some (l : List (List ℚ)) (g : List ℚ → ℚ) :
    ((l.map fun w => some (g w)).filter Option.isSome) =
      l.map fun w => some (g w) := by
  induction l with
  | nil => rfl
  | cons a t ih => simp [List.filter, ih]

theorem cacheLookup_insert_self (st : CacheState) (key : String × String)
    (df : DataFrame) (e now : ℕ) :
    cacheLookup (cacheInsert st key df e) key now =
      if now < e then some df else none := by
  simp [cacheInsert, cacheLookup]

theorem calculate_rsi_df_eq (df : DataFrame) (p : ℕ) (close : List ℚ)
    (h : df.getCol "close" = some (close.map PVal.val)) :
    calculate_rsi_df df p =
      some (df.setCol "RSI" (calculate_rsi close p)) := by
  simp [calculate_rsi_df, h, asFiniteList_map_val]

theorem calculate_rsi_eq_explicit :
    calculate_rsi [1, 2, 3] 2 = [PVal.nan, PVal.val 100, PVal.val 100] := by
  norm_num [calculate_rsi, List.range_succ, rsiAt, rsAt, avgGainAt,
    avgLossAt, rollingMeanAt, gainAt, lossAt, deltaAt, rsiOfRs,
    Finset.sum_range_succ]

/-! ## Claims -/

/-- C1 (amended): the code's RSI arithmetic handles a zero average loss
implicitly through IEEE semantics, not by an explicit policy: where
`avgGain > 0` and `avgLoss = 0` the RSI cell is 100 (as the claim says),
but where both averages are 0 the cell is NaN — absent, not the claimed
neutral 50 — and consequently RSI over a constant close series is NaN at
every index rather than 50. -/
theorem C1_rsi_zero_division_amended :
    (∀ (close : List ℚ) (p i : ℕ) (g : ℚ), i < close.length →
        avgGainAt close p i = some g → 0 < g →
        avgLossAt close p i = some 0 →
        (calculate_rsi close p)[i]? = some (PVal.val 100)) ∧
    (∀ (close : List ℚ) (p i : ℕ), i < close.length →
        avgGainAt close p i = some 0 → avgLossAt close p i = some 0 →
        (calculate_rsi close p)[i]? = some PVal.nan) ∧
    (∀ (c : ℚ) (n p i : ℕ), i < n →
        (calculate_rsi (List.replicate n c) p)[i]? = some PVal.nan) := by
  refine ⟨fun close p i g hi hg hgpos hl => ?_,
    fun close p i hi hg hl => ?_, fun c n p i hi => ?_⟩
  · rw [calculate_rsi_getElem close p i hi]
    unfold rsiAt
    rw [rsAt_of_some close p i g 0 hg hl]
    simp [rsiOfRs, hgpos]
  · rw [calculate_rsi_getElem close p i hi]
    unfold rsiAt
    rw [rsAt_of_some close p i 0 0 hg hl]
    simp [rsiOfRs]
  · rw [calculate_rsi_getElem _ p i (by simpa using hi)]
    rw [rsiAt_replicate]

/-- C1 counterexample: on the flat close series `[5,5,5,5]` with period
2, at index 2 both trailing averages are 0, yet the RSI cell is NaN and
not the claimed 50. -/
theorem C1_rsi_flat_counterexample :
    avgGainAt (List.replicate 4 (5 : ℚ)) 2 2 = some 0 ∧
    avgLossAt (List.replicate 4 (5 : ℚ)) 2 2 = some 0 ∧
    (calculate_rsi (List.replicate 4 (5 : ℚ)) 2)[2]? = some PVal.nan ∧
    (PVal.nan ≠ PVal.val 50) := by
  refine ⟨?_, ?_, ?_, by decide⟩
  · norm_num [avgGainAt, rollingMeanAt, gainAt_replicate,
      Finset.sum_range_succ]
  · norm_num [avgLossAt, rollingMeanAt, lossAt_replicate,
      Finset.sum_range_succ]
  · norm_num [calculate_rsi, rsiAt_replicate, List.getElem?_map,
      List.getElem?_range]

/-- C1 witness: the 100-branch at a concrete rising series, and the flat
NaN behaviour at a concrete constant series. -/
theorem C1_rsi_zero_division_witness :
    (calculate_rsi [1, 2, 3] 2)[2]? = some (PVal.val 100) ∧
    (calculate_rsi (List.replicate 4 (5 : ℚ)) 3)[1]? = some PVal.nan :=
  ⟨C1_rsi_zero_division_amended.1 [1, 2, 3] 2 2 1 (by norm_num)
      (by norm_num [avgGainAt, rollingMeanAt, gainAt, deltaAt,
        Finset.sum_range_succ])
      (by norm_num)
      (by norm_num [avgLossAt, rollingMeanAt, lossAt, deltaAt,
        Finset.sum_range_succ]),
    C1_rsi_zero_division_amended.2.2 5 4 3 1 (by norm_num)⟩

/-- C2 (amended): the RSI column is absent (NaN) at 0-based indices
`i` with `i + 1 < p`; because `where` coerces the undefined first
difference to a gain/loss of 0, the rolling means — and hence possibly
the RSI — are already populated from index `p - 1`, one index earlier
than the claim's `p + 1` bound; and at every index `i ≥ p` (where the
window contains only genuine differences) with spec-side
`avgLoss[i] > 0`, the cell is exactly `100 - 100/(1 + avgGain/avgLoss)`
with the spec's trailing `p`-means. -/
theorem C2_rsi_defined_indices_amended (close : List ℚ) (p i : ℕ) :
    (i < close.length → i + 1 < p →
      (calculate_rsi close p)[i]? = some PVal.nan) ∧
    (p ≤ i → i < close.length → 0 < specAvgLoss close p i →
      (calculate_rsi close p)[i]? =
        some (.val (100 - 100 /
          (1 + specAvgGain close p i / specAvgLoss close p i)))) := by
  constructor
  · intro hi hp
    rw [calculate_rsi_getElem close p i hi]
    have hnp : ¬ p ≤ i + 1 := by omega
    simp [rsiAt, rsAt, avgGainAt, avgLossAt, rollingMeanAt, hnp, rsiOfRs]
  · intro hp hi hl
    rw [calculate_rsi_getElem close p i hi]
    unfold rsiAt
    rw [rsAt_of_some close p i (specAvgGain close p i) (specAvgLoss close p i)
      (avgGainAt_eq_spec close p i hp hi) (avgLossAt_eq_spec close p i hp hi)]
    rw [if_neg (ne_of_gt hl)]
    have hg : 0 ≤ specAvgGain close p i := specAvgGain_nonneg close p i
    have hq : 0 ≤ specAvgGain close p i / specAvgLoss close p i :=
      div_nonneg hg hl.le
    have h1 : 1 + specAvgGain close p i / specAvgLoss close p i ≠ 0 := by
      intro h0
      rw [← h0] at hq
      nlinarith
    simp [rsiOfRs, h1]

/-- C2 counterexample: with period 2 on the close series `[1,2,3]`,
the RSI cell at 0-based index 1 — which the claim requires to be absent
(1 < p + 1 = 3, whichever indexing convention is used) — is present with
value 100. -/
theorem C2_rsi_early_definedness_counterexample :
    (calculate_rsi [1, 2, 3] 2)[1]? = some (PVal.val 100) ∧
    (PVal.val 100 ≠ PVal.nan) := by
  refine ⟨?_, by decide⟩
  norm_num [calculate_rsi, rsiAt, rsAt, avgGainAt, avgLossAt,
    rollingMeanAt, gainAt, lossAt, deltaAt, rsiOfRs, Finset.sum_range_succ,
    List.getElem?_map, List.getElem?_range]

/-- C2 witness: the absent region and the formula region at concrete
inputs — index 0 of a period-2 RSI is NaN, and on `[1,2,1]` at index 2
the spec formula evaluates to 50. -/
theorem C2_rsi_defined_indices_witness :
    (calculate_rsi [1, 2, 1] 2)[0]? = some PVal.nan ∧
    (calculate_rsi [1, 2, 1] 2)[2]? = some (PVal.val 50) :=
  ⟨(C2_rsi_defined_indices_amended [1, 2, 1] 2 0).1 (by norm_num)
      (by norm_num),
    ((C2_rsi_defined_indices_amended [1, 2, 1] 2 2).2 (by norm_num)
      (by norm_num)
      (by norm_num [specAvgLoss, specLoss, Finset.sum_range_succ])).trans
      (by norm_num [specAvgGain, specAvgLoss, specGain, specLoss,
        Finset.sum_range_succ])⟩

/-- C3: the moving-average series (spec-modelled; no moving-average code
exists in `src/`) has the length of its input; every position with fewer
than `n` points of history is absent (`none`, not zero); exactly
`L + 1 - n` positions are defined (so 0 when `L < n` and `L - n + 1`
when `L ≥ n`); each defined position `k + n - 1` carries the arithmetic
mean of the `n`-long trailing window starting at `k`; and on
`[1,2,3,4,5,6,7]` with window 3 the first two values are absent followed
by `[2,3,4,5,6]`. -/
theorem C3_moving_average (n : ℕ) (xs : List ℚ) (hn : 0 < n) :
    ((movingAverage n xs).length = xs.length) ∧
    (∀ i, i < xs.length → i + 1 < n →
      (movingAverage n xs)[i]? = some none) ∧
    (((movingAverage n xs).filter Option.isSome).length =
      xs.length + 1 - n) ∧
    (∀ k, k + n ≤ xs.length →
      (movingAverage n xs)[k + n - 1]? =
        some (some (((xs.drop k).take n).sum / (n : ℚ))) ∧
      ((xs.drop k).take n).length = n) ∧
    movingAverage 3 [1, 2, 3, 4, 5, 6, 7] =
      [none, none, some 2, some 3, some 4, some 5, some 6] := by
  refine ⟨?_, fun i hiL hin => ?_, ?_, fun k hk => ⟨?_, ?_⟩, ?_⟩
  · simp [movingAverage, windows]
    omega
  · have hrep : i < (List.replicate (min xs.length (n - 1))
        (none : Option ℚ)).length := by
      simp
      omega
    rw [movingAverage, List.getElem?_append]
    rw [if_pos hrep]
    simp [List.getElem?_replicate]
    omega
  · rw [movingAverage, List.filter_append, filter_isSome_replicate_none,
      filter_isSome_map_some]
    simp [windows]
  · have hlen : (List.replicate (min xs.length (n - 1))
        (none : Option ℚ)).length = n - 1 := by
      simp
      omega
    have hge : (List.replicate (min xs.length (n - 1))
        (none : Option ℚ)).length ≤ k + n - 1 := by
      rw [hlen]
      omega
    rw [movingAverage, List.getElem?_append_right hge, hlen]
    have hidx : k + n - 1 - (n - 1) = k := by omega
    rw [hidx]
    have hkw : k < (xs.length + 1 - n) := by omega
    simp [windows, List.getElem?_map, List.getElem?_range, hkw]
  · simp
    omega
  · norm_num [movingAverage, windows, List.range_succ, List.replicate]

/-- C3 witness: the count of defined values for window 3 over a
7-element series is `7 + 1 - 3 = 5`. -/
theorem C3_moving_average_witness :
    ((movingAverage 3 [1, 2, 3, 4, 5, 6, 7]).filter Option.isSome).length =
      7 + 1 - 3 :=
  (C3_moving_average 3 [1, 2, 3, 4, 5, 6, 7] (by norm_num)).2.2.1

/-- C4 (amended): `calculate_rsi` computes the RSI series and installs
it with the in-place column assignment `df['RSI'] = ...`, then returns
the very object it was given: the input DataFrame is mutated — its
post-call state (which is also the return value, here the value of
`calculate_rsi_df`) extends the pre-call state with the `'RSI'` column
rather than leaving the input unchanged.  The spec-modelled
`movingAverage` is a pure Lean function. -/
theorem C4_rsi_mutates_input_amended (df : DataFrame) (p : ℕ)
    (close : List ℚ) (h : df.getCol "close" = some (close.map PVal.val)) :
    calculate_rsi_df df p =
      some (df.setCol "RSI" (calculate_rsi close p)) := by
  simp [calculate_rsi_df, h, asFiniteList_map_val]

/-- C4 counterexample: for a concrete one-column frame the post-call
state of the input object differs from its pre-call state (the `'RSI'`
column has appeared in it), refuting "neither mutates its input". -/
theorem C4_rsi_mutation_counterexample :
    calculate_rsi_df ⟨[("close", [PVal.val 1, PVal.val 2, PVal.val 3])]⟩ 2 =
      some ⟨[("close", [PVal.val 1, PVal.val 2, PVal.val 3]),
             ("RSI", [PVal.nan, PVal.val 100, PVal.val 100])]⟩ ∧
    calculate_rsi_df ⟨[("close", [PVal.val 1, PVal.val 2, PVal.val 3])]⟩ 2 ≠
      some ⟨[("close", [PVal.val 1, PVal.val 2, PVal.val 3])]⟩ := by
  have h : calculate_rsi_df
      ⟨[("close", [PVal.val 1, PVal.val 2, PVal.val 3])]⟩ 2 =
      some ⟨[("close", [PVal.val 1, PVal.val 2, PVal.val 3]),
             ("RSI", [PVal.nan, PVal.val 100, PVal.val 100])]⟩ := by
    rw [calculate_rsi_df_eq _ 2 [1, 2, 3] (by decide),
      calculate_rsi_eq_explicit]
    decide
  exact ⟨h, by rw [h]; decide⟩

/-- C4 witness: the amended statement at a concrete one-row frame. -/
theorem C4_rsi_mutates_input_witness :
    calculate_rsi_df ⟨[("close", [PVal.val 7])]⟩ 14 =
      some ((⟨[("close", [PVal.val 7])]⟩ : DataFrame).setCol "RSI"
        (calculate_rsi [7] 14)) :=
  C4_rsi_mutates_input_amended ⟨[("close", [PVal.val 7])]⟩ 14 [7]
    (by simp [DataFrame.getCol, lookupCol])

/-- C9 (amended): for every input frame whose `'close'` column holds
finite values, `calculate_rsi` sets the `'RSI'` column — appending it
when absent, overwriting it in place when already present — and leaves
every other column untouched, with the new column exactly the computed
RSI series, one cell per data row. -/
theorem C9_adds_only_rsi_column_amended (df : DataFrame) (p : ℕ)
    (close : List ℚ) (h : df.getCol "close" = some (close.map PVal.val)) :
    ∃ df2, calculate_rsi_df df p = some df2 ∧
      (∀ name, name ≠ "RSI" → df2.getCol name = df.getCol name) ∧
      df2.getCol "RSI" = some (calculate_rsi close p) ∧
      (calculate_rsi close p).length = close.length ∧
      (df.getCol "RSI" = none →
        df2.cols.map Prod.fst = df.cols.map Prod.fst ++ ["RSI"]) := by
  refine ⟨df.setCol "RSI" (calculate_rsi close p), ?_, ?_, ?_, ?_, ?_⟩
  · simp [calculate_rsi_df, h, asFiniteList_map_val]
  · exact fun name hn => getCol_setCol_ne df "RSI" name _ hn
  · exact getCol_setCol_self df "RSI" _
  · exact calculate_rsi_length close p
  · exact fun hab => setCol_names_of_absent df "RSI" _ hab

/-- C9 counterexample: when the input frame already carries an `'RSI'`
column, the assignment overwrites it in place and the output has the
same number of columns as the input — no column is added, refuting
"adds exactly one column" over all inputs with a close column. -/
theorem C9_existing_rsi_counterexample :
    calculate_rsi_df ⟨[("close", [PVal.val 1, PVal.val 2, PVal.val 3]),
        ("RSI", [PVal.nan, PVal.nan, PVal.nan])]⟩ 2 =
      some ⟨[("close", [PVal.val 1, PVal.val 2, PVal.val 3]),
        ("RSI", [PVal.nan, PVal.val 100, PVal.val 100])]⟩ ∧
    ((⟨[("close", [PVal.val 1, PVal.val 2, PVal.val 3]),
        ("RSI", [PVal.nan, PVal.val 100, PVal.val 100])]⟩ :
          DataFrame).cols.length =
      (⟨[("close", [PVal.val 1, PVal.val 2, PVal.val 3]),
        ("RSI", [PVal.nan, PVal.nan, PVal.nan])]⟩ :
          DataFrame).cols.length) := by
  constructor
  · rw [calculate_rsi_df_eq _ 2 [1, 2, 3] (by decide),
      calculate_rsi_eq_explicit]
    decide
  · rfl

/-- C9 witness: the amended statement at a concrete two-column frame
without a pre-existing RSI column. -/
theorem C9_adds_only_rsi_column_witness :
    (calculate_rsi_df ⟨[("timestamp", [PVal.val 0]),
        ("close", [PVal.val 7])]⟩ 14).isSome = true := by
  obtain ⟨df2, h1, -⟩ :=
    C9_adds_only_rsi_column_amended
      ⟨[("timestamp", [PVal.val 0]), ("close", [PVal.val 7])]⟩ 14 [7]
      (by simp [DataFrame.getCol, lookupCol])
  rw [h1]
  rfl

/-- C5 (amended): `get_ohlc_data` performs no window validation at all:
for every `days` value — inside or outside the provider's enumerated
set — the network request is issued (exactly one call on every path),
and a provider rejection (4xx/5xx status) is swallowed by the catch-all
handler and surfaces as a plain empty DataFrame, not as a tagged
`InvalidWindow` error.  Only the UI slider in `main` keeps out-of-set
values away, by offering just `{7,14,30,90,180,365}`. -/
theorem C5_no_window_validation_amended :
    (∀ (cid days : String) (resp : FetchResponse),
      (get_ohlc_data cid days resp).networkCalls = 1) ∧
    ("45" ∉ days_options) ∧
    (∀ (cid days : String) (s : ℕ) (body : Option (List (List ℚ))),
      400 ≤ s → s < 600 →
      (get_ohlc_data cid days (.http s body)).df = emptyDF) := by
  refine ⟨get_ohlc_networkCalls, by decide,
    fun cid days s body h1 h2 => ?_⟩
  exact get_ohlc_df_of_error cid days _
    (get_ohlc_body_status_err s body h1 h2)

/-- C5 counterexample: requesting the out-of-set window "45" issues the
network call anyway (the claim requires none) and yields the plain empty
DataFrame, not a tagged error. -/
theorem C5_invalid_window_counterexample :
    get_ohlc_data "bitcoin" "45" (.http 422 none) = ⟨emptyDF, 1⟩ ∧
    (get_ohlc_data "bitcoin" "45" (.http 422 none)).networkCalls ≠ 0 := by
  decide

/-- C5 witness: the amended statement at the out-of-set value "45". -/
theorem C5_no_window_validation_witness :
    (get_ohlc_data "bitcoin" "45" FetchResponse.exn).networkCalls = 1 ∧
    (get_ohlc_data "bitcoin" "45"
      (.http 422 (some [[1, 1, 1, 1, 1]]))).df = emptyDF :=
  ⟨C5_no_window_validation_amended.1 "bitcoin" "45" FetchResponse.exn,
    C5_no_window_validation_amended.2.2 "bitcoin" "45" 422
      (some [[1, 1, 1, 1, 1]]) (by norm_num) (by norm_num)⟩

/-- C6 (amended): on a transport failure, a 4xx/5xx status (3xx
responses with a parseable body are *not* failed), an unparsable body,
or an empty payload, `get_ohlc_data` returns the plain empty DataFrame —
the catch-all handler prevents any exception from escaping — but carries
no tag: the failure kinds are indistinguishable from each other and from
a genuinely empty dataset; `main` then shows its empty-state warning. -/
theorem C6_failure_empty_frame_amended (cid days : String)
    (resp : FetchResponse)
    (h : resp = .exn ∨
      (∃ s b, resp = .http s b ∧ 400 ≤ s ∧ s < 600) ∨
      (∃ s, resp = .http s none) ∨
      (∃ s, resp = .http s (some []))) :
    (get_ohlc_data cid days resp).df = emptyDF := by
  rcases h with rfl | ⟨s, b, rfl, h1, h2⟩ | ⟨s, rfl⟩ | ⟨s, rfl⟩
  · rfl
  · exact get_ohlc_df_of_error cid days _
      (get_ohlc_body_status_err s b h1 h2)
  · by_cases hs : 400 ≤ s ∧ s < 600
    · exact get_ohlc_df_of_error cid days _
        (get_ohlc_body_status_err s none hs.1 hs.2)
    · exact get_ohlc_df_of_error cid days _ (get_ohlc_body_unparsable s hs)
  · by_cases hs : 400 ≤ s ∧ s < 600
    · exact get_ohlc_df_of_error cid days _
        (get_ohlc_body_status_err s (some []) hs.1 hs.2)
    · exact get_ohlc_df_of_ok cid days _ emptyDF
        (get_ohlc_body_empty_payload s hs)

/-- C6 counterexample: a transport failure produces the very same
untagged outcome as a perfectly valid empty payload — there is no
`DataUnavailable` tagged result distinguishing them, refuting "reported
as a tagged result". -/
theorem C6_untagged_failure_counterexample :
    get_ohlc_data "bitcoin" "30" .exn = ⟨emptyDF, 1⟩ ∧
    get_ohlc_data "bitcoin" "30" .exn =
      get_ohlc_data "bitcoin" "30" (.http 200 (some [])) := by
  decide

/-- C6 witness: a 500 status with a well-formed body still degrades to
the empty frame. -/
theorem C6_failure_empty_frame_witness :
    (get_ohlc_data "bitcoin" "30"
      (.http 500 (some [[1, 1, 1, 1, 1]]))).df = emptyDF :=
  C6_failure_empty_frame_amended "bitcoin" "30" _
    (Or.inr (Or.inl ⟨500, some [[1, 1, 1, 1, 1]], rfl, by norm_num,
      by norm_num⟩))

/-- C7 (amended): `get_ohlc_data` performs no sorting and no
deduplication: the snapshot's timestamp axis is exactly the payload's
first components in payload order, so it is strictly increasing exactly
when the provider payload already is; an unsorted payload passes through
unsorted. -/
theorem C7_payload_order_preserved_amended (cid days : String)
    (data : List (List ℚ)) (h0 : data ≠ [])
    (h5 : ∀ r ∈ data, r.length = 5) :
    ((get_ohlc_data cid days (.http 200 (some data))).df).getCol
        "timestamp" =
      some (data.map fun r => PVal.val (r.getD 0 0)) := by
  have hw : rowWidth data = 5 := rowWidth_of_all5 data h0 h5
  have hbody : get_ohlc_body (.http 200 (some data)) = .ok (mkOhlcDF data) :=
    get_ohlc_body_parsed 200 data (by omega) h0 hw
  rw [get_ohlc_df_of_ok cid days _ (mkOhlcDF data) hbody]
  unfold mkOhlcDF DataFrame.getCol
  rw [show lookupCol
      [("timestamp", data.map fun r => ohlcCell r 0),
       ("open", data.map fun r => ohlcCell r 1),
       ("high", data.map fun r => ohlcCell r 2),
       ("low", data.map fun r => ohlcCell r 3),
       ("close", data.map fun r => ohlcCell r 4),
       ("date", data.map fun r => ohlcCell r 0)] "timestamp" =
      some (data.map fun r => ohlcCell r 0) from rfl]
  congr 1
  refine List.map_congr_left fun r hr => ?_
  have h5r : r.length = 5 := h5 r hr
  simp [ohlcCell, h5r]

/-- C7 counterexample: an unsorted two-row payload (timestamps 2 then 1)
passes through with timestamp axis `[2, 1]`, which is not strictly
increasing — the result is not sorted ascending. -/
theorem C7_unsorted_passthrough_counterexample :
    ((get_ohlc_data "bitcoin" "7"
        (.http 200 (some [[2, 0, 0, 0, 1], [1, 0, 0, 0, 2]]))).df).getCol
        "timestamp" = some [PVal.val 2, PVal.val 1] ∧
    strictlyIncreasing [PVal.val 2, PVal.val 1] = false := by
  decide

/-- C7 witness: the amended pass-through statement at a concrete sorted
payload. -/
theorem C7_payload_order_preserved_witness :
    ((get_ohlc_data "bitcoin" "7"
        (.http 200 (some [[1, 0, 0, 0, 2], [2, 0, 0, 0, 3]]))).df).getCol
        "timestamp" = some [PVal.val 1, PVal.val 2] :=
  (C7_payload_order_preserved_amended "bitcoin" "7"
    [[1, 0, 0, 0, 2], [2, 0, 0, 0, 3]] (by decide) (by decide)).trans
    (by decide)

/-- C10: `get_ohlc_data` is total over every provider behaviour: it
always issues exactly one network request and always returns a
DataFrame — either the parsed OHLC frame on a fully successful response,
or the empty frame — never propagating an exception; in particular an
empty-but-valid payload yields the empty DataFrame. -/
theorem C10_fetch_never_raises (cid days : String)
    (resp : FetchResponse) :
    (get_ohlc_data cid days resp).networkCalls = 1 ∧
    ((get_ohlc_data cid days resp).df = emptyDF ∨
      (∃ s data, resp = .http s (some data) ∧
        (get_ohlc_data cid days resp).df = mkOhlcDF data)) ∧
    (get_ohlc_data cid days
      (.http 200 (some ([] : List (List ℚ))))).df = emptyDF := by
  refine ⟨get_ohlc_networkCalls cid days resp, ?_, rfl⟩
  rcases resp with _ | ⟨s, body⟩
  · exact Or.inl rfl
  · rcases body with _ | data
    · left
      by_cases hs : 400 ≤ s ∧ s < 600
      · exact get_ohlc_df_of_error cid days _
          (get_ohlc_body_status_err s none hs.1 hs.2)
      · exact get_ohlc_df_of_error cid days _
          (get_ohlc_body_unparsable s hs)
    · by_cases hs : 400 ≤ s ∧ s < 600
      · exact Or.inl (get_ohlc_df_of_error cid days _
          (get_ohlc_body_status_err s (some data) hs.1 hs.2))
      · by_cases hd : data = []
        · subst hd
          exact Or.inl (get_ohlc_df_of_ok cid days _ emptyDF
            (get_ohlc_body_empty_payload s hs))
        · by_cases hw : rowWidth data = 5
          · exact Or.inr ⟨s, data, rfl, get_ohlc_df_of_ok cid days _ _
              (get_ohlc_body_parsed s data hs hd hw)⟩
          · exact Or.inl (get_ohlc_df_of_error cid days _
              (get_ohlc_body_badwidth s data hs hd hw))

/-- C8: the TTL memoization contract of the `@st.cache_data(ttl=300)`
decorator on `get_ohlc_data` (spec-modelled: the decorator's internals
are not in `src/`, only its application with a 300-second — 5-minute —
TTL): after a miss-and-fill at time `t0`, a second fetch for the same
`(coin_id, days)` key strictly before `t0 + 300` returns the identical
cached DataFrame with zero network calls and an unchanged cache, while a
fetch at or after `t0 + 300` finds the entry expired and performs
exactly one new network call. -/
theorem C8_cache_ttl_roundtrip (t0 t1 : ℕ) (cid days : String)
    (resp resp2 : FetchResponse) (st0 : CacheState)
    (hmiss : cacheLookup st0 (cid, days) t0 = none) :
    (t1 < t0 + 300 →
      cachedFetch t1 cid days resp2 (cachedFetch t0 cid days resp st0).2.1 =
        ((cachedFetch t0 cid days resp st0).1,
          (cachedFetch t0 cid days resp st0).2.1, 0)) ∧
    (t0 + 300 ≤ t1 →
      (cachedFetch t1 cid days resp2
        (cachedFetch t0 cid days resp st0).2.1).2.2 = 1) := by
  have h0 : cachedFetch t0 cid days resp st0 =
      ((get_ohlc_data cid days resp).df,
        cacheInsert st0 (cid, days) (get_ohlc_data cid days resp).df
          (t0 + 300),
        (get_ohlc_data cid days resp).networkCalls) := by
    unfold cachedFetch
    rw [hmiss]
  constructor
  · intro ht
    rw [h0]
    unfold cachedFetch
    rw [cacheLookup_insert_self, if_pos ht]
  · intro ht
    rw [h0]
    unfold cachedFetch
    rw [cacheLookup_insert_self, if_neg (by omega)]
    exact get_ohlc_networkCalls cid days resp2

/-- C8 witness: a concrete round-trip — fill at time 0, hit at time 100
(identical frame, no network call), expired at time 300 (one new
network call). -/
theorem C8_cache_ttl_roundtrip_witness :
    (cachedFetch 100 "bitcoin" "30" FetchResponse.exn
        (cachedFetch 0 "bitcoin" "30" FetchResponse.exn []).2.1 =
      ((cachedFetch 0 "bitcoin" "30" FetchResponse.exn []).1,
        (cachedFetch 0 "bitcoin" "30" FetchResponse.exn []).2.1, 0)) ∧
    (cachedFetch 300 "bitcoin" "30" FetchResponse.exn
        (cachedFetch 0 "bitcoin" "30" FetchResponse.exn []).2.1).2.2 = 1 :=
  ⟨(C8_cache_ttl_roundtrip 0 100 "bitcoin" "30" FetchResponse.exn
      FetchResponse.exn [] rfl).1 (by norm_num),
    (C8_cache_ttl_roundtrip 0 300 "bitcoin" "30" FetchResponse.exn
      FetchResponse.exn [] rfl).2 (by norm_num)⟩

end AppCrypto
